import Mathlib

/-!
Verification of the CSD dataset analysis pipeline against its specification.

The definitions below are a shallow embedding of the reusable core of the
repository: the wide-to-long reshape (`CSDDatasetLoader.convert_to_long_format`
and `identify_monthly_columns` in `final_deliverable/scripts/data_loader.py`),
the data-quality normalizer (`CSDDatasetLoader.clean_data`), and the
aggregation operations used by `eda_analysis.py` and `geographic_analysis.py`
(group-by sums, printed shares, HHI, regional growth, H1/H2 growth, top-N).

Numeric sales values are modelled as rationals (`ℚ`), which covers both the
integer and the floating-point readings of the spec exactly; division is the
total field division of `ℚ` (division by zero yields 0, where pandas floats
would yield NaN or infinity — each spot where this matters is noted).
-/

namespace CSD

/-- The fifteen identifier columns of the wide table, in the order listed in
`convert_to_long_format` (`id_vars`). All are free-form strings. -/
structure Ids where
  region : String
  province : String
  precisionArea : String
  market : String
  keyManu : String
  brand : String
  brand2 : String
  csdCsdPlus : String
  flavorSegment : String
  regDiet : String
  keyPacks : String
  subBrand : String
  packType : String
  packSize : String
  item : String
deriving DecidableEq

/-- One row of the melted long table (`df_long`). `month` is the month token
with the apostrophe stripped (e.g. `Jan24`); `monthNum`/`year` are the fields
of the parsed `Date` (day is always the 1st and is omitted). The further
derived columns (`Month_Name`, `Quarter`, `Year`) are functions of the date,
so record equality on these fields coincides with pandas row equality. -/
structure LongRecord where
  ids : Ids
  month : String
  monthNum : Nat
  year : Nat
  sales : ℚ
deriving DecidableEq

/-- One row of the wide source table: the identifier tuple plus the numeric
monthly values, positionally aligned with the detected monthly columns. -/
structure WideRow where
  ids : Ids
  values : List ℚ
deriving DecidableEq

/-- The wide source table: its column-name list (used for month-column
detection) and its rows. -/
structure WideTable where
  cols : List String
  rows : List WideRow
deriving DecidableEq

/-- Decides whether `pat` is a prefix of the character list. -/
def isPrefixChars : List Char → List Char → Bool
  | [], _ => true
  | _ :: _, [] => false
  | p :: ps, c :: cs => p = c && isPrefixChars ps cs

/-- Decides whether the pattern occurs as a contiguous run inside the list
(the `in` test of Python on strings). -/
def containsRun (pat : List Char) : List Char → Bool
  | [] => isPrefixChars pat []
  | c :: cs => isPrefixChars pat (c :: cs) || containsRun pat cs

/-- The fixed year-marker substring of `identify_monthly_columns`. -/
def yearMarker : String := "'24"

/-- `identify_monthly_columns`: a column is a monthly value column iff its
name contains the year marker; source column order is preserved. -/
def monthlyCols (t : WideTable) : List String :=
  t.cols.filter (fun c => containsRun yearMarker.data c.data)

/-- Drops the apostrophes from a month token
(`df_long['Month'].str.replace` with the quote character). -/
def stripQuote (c : String) : String :=
  String.mk (c.data.filter (fun ch => ch ≠ Char.ofNat 39))

/-- Three-letter month abbreviation (lower-cased) to month number, as accepted
by `strptime` directive b in the C locale. -/
def monthFromAbbrev (s : String) : Option Nat :=
  if s = ("jan") then some 1
  else if s = ("feb") then some 2
  else if s = ("mar") then some 3
  else if s = ("apr") then some 4
  else if s = ("may") then some 5
  else if s = ("jun") then some 6
  else if s = ("jul") then some 7
  else if s = ("aug") then some 8
  else if s = ("sep") then some 9
  else if s = ("oct") then some 10
  else if s = ("nov") then some 11
  else if s = ("dec") then some 12
  else none

/-- Parses a month column name: strip apostrophes, then match a three-letter
month abbreviation (case-insensitive, as Python `strptime` is) followed by a
two-digit year with the Python pivot (69–99 means 19xx, 00–68 means 20xx).
Returns `(monthNum, year)`; `none` models the `ValueError` of
`pd.to_datetime(..., format = b-y)`. -/
def parseMonth (c : String) : Option (Nat × Nat) :=
  match (stripQuote c).data with
  | [a, b, d, e, g] =>
    match monthFromAbbrev (String.mk [a.toLower, b.toLower, d.toLower]) with
    | some m =>
      if e.isDigit && g.isDigit then
        let y := (e.toNat - 48) * 10 + (g.toNat - 48)
        some (m, if 69 ≤ y then 1900 + y else 2000 + y)
      else none
    | none => none
  | _ => none

/-- The long record emitted for wide row `r` and the monthly column `c` at
position `j` of the detected column list. -/
def mkLong (r : WideRow) (j : Nat) (c : String) : LongRecord :=
  { ids := r.ids
    month := stripQuote c
    monthNum := ((parseMonth c).getD (1, 0)).1
    year := ((parseMonth c).getD (1, 0)).2
    sales := r.values.getD j 0 }

/-- `pd.melt` output order: column-major — for each monthly value column in
detection order, one record per wide row in source row order. -/
def meltRecords (t : WideTable) : List LongRecord :=
  (monthlyCols t).enum.flatMap (fun jc => t.rows.map (fun r => mkLong r jc.1 jc.2))

/-- Sort key of `sort_values` on the `Date` column. -/
def dateCode (r : LongRecord) : Nat := r.year * 12 + r.monthNum

/-- Model of `df_long.sort_values` on `Date`. The source passes no `kind`
argument, so pandas uses its default quicksort, which pandas documents as not
stable; this model is one concrete deterministic refinement (a stable sort)
producing the guaranteed part of the behaviour, ascending date order. The
difference is exactly what claim C4 is about. -/
def sortByDate (l : List LongRecord) : List LongRecord :=
  List.insertionSort (fun a b => dateCode a ≤ dateCode b) l

/-- The message of the `ValueError` raised by `pd.to_datetime` when a month
token fails to parse; it names the offending (already apostrophe-stripped)
token from the melted `Month` column. -/
def parseFailMsg (c : String) : String :=
  ("time data does not match format percent-b percent-y: ") ++ c

/-- `convert_to_long_format`: melt the wide table against the detected monthly
columns, then parse the melted `Month` values (the stripped column names, one
per row per column) into dates, then sort by date. `pd.to_datetime` runs on
the melted column, so an unparseable column name raises only when the melted
frame contains at least one of its values — a table with zero rows (or zero
detected month columns) melts to an empty frame and the method reports
success with zero records. A raised `ValueError` is caught by the method,
which reports a failed conversion (`return False`) yielding no converted
records — modelled as `Except.error` carrying the message that names the
first offending token. (The real method has by then already stored the
melted-but-unparsed frame on `self.df_long`; this pure model returns only the
method's result and does not track that leftover object state.) -/
def convertToLongFormat (t : WideTable) : Except String (List LongRecord) :=
  match (meltRecords t).find? (fun r => (parseMonth r.month).isNone) with
  | some r => Except.error (parseFailMsg r.month)
  | none => Except.ok (sortByDate (meltRecords t))

/-- `drop_duplicates` with the default keep-first policy: the first occurrence
of every row is kept, later exact duplicates are removed, and the survivors
keep their original order. Also models the first-appearance order of
`Series.unique`. -/
def dropDuplicates {α : Type} [DecidableEq α] : List α → List α
  | [] => []
  | x :: xs => x :: (dropDuplicates xs).filter (fun y => y ≠ x)

/-- Clipping step of `clean_data`: a record with negative sales has its sales
set to exactly 0; all other fields, and nonnegative records, are untouched. -/
def clipRecord (r : LongRecord) : LongRecord :=
  if r.sales < 0 then { r with sales := 0 } else r

/-- Number of records with strictly negative sales
(`(self.df_long['Sales'] < 0).sum()`). -/
def negCount (l : List LongRecord) : Nat :=
  l.countP (fun r => decide (r.sales < 0))

/-- Result of one `clean_data` run: the cleaned records plus the two reported
data-quality counts. -/
structure CleanResult where
  records : List LongRecord
  removedCount : Nat
  clippedCount : Nat

/-- `clean_data`: first exact-duplicate removal (keep first), then negative
clipping on the deduplicated records; the reported counts are the number of
duplicate rows dropped and the number of negative sales values found at the
clipping step. -/
def cleanData (l : List LongRecord) : CleanResult :=
  { records := (dropDuplicates l).map clipRecord
    removedCount := l.length - (dropDuplicates l).length
    clippedCount := negCount (dropDuplicates l) }

/-- Sum of the `Sales` column of a record list (`['Sales'].sum()`). -/
def sumSales (l : List LongRecord) : ℚ :=
  (l.map (fun r => r.sales)).sum

/-- The grand total `self.df['Sales'].sum()`. -/
def totalSales (l : List LongRecord) : ℚ := sumSales l

/-- The distinct values of a column in first-appearance order
(`Series.unique`). -/
def distinctVals (key : LongRecord → String) (l : List LongRecord) : List String :=
  dropDuplicates (l.map key)

/-- Strict lexicographic order on character lists by code point — the string
order Python uses when `groupby` sorts its group keys. -/
def charListLt : List Char → List Char → Bool
  | [], [] => false
  | [], _ :: _ => true
  | _ :: _, [] => false
  | c :: cs, d :: ds =>
    decide (c.toNat < d.toNat) || (decide (c = d) && charListLt cs ds)

/-- Strict string order by code points. -/
def strLtB (a b : String) : Bool := charListLt a.data b.data

/-- Reflexive string order by code points. -/
def strLeB (a b : String) : Bool := strLtB a b || decide (a = b)

/-- Ascending sort of strings — the key order of `groupby`, which sorts group
keys ascending by default. -/
def sortStrings (ks : List String) : List String :=
  List.insertionSort (fun a b => strLeB a b = true) ks

/-- `groupby(key)['Sales'].sum()`: one `(key, sum)` pair per distinct key, in
ascending key order. -/
def groupSums (key : LongRecord → String) (l : List LongRecord) : List (String × ℚ) :=
  (sortStrings (distinctVals key l)).map
    (fun k => (k, sumSales (l.filter (fun r => decide (key r = k)))))

/-- `Series.sort_values(ascending = false)`: pandas argsorts ascending and
then reverses the index order. The ascending argsort is modelled as a stable
sort — exact for the small arrays (at most 16 elements) where numpy runs its
stable insertion sort, which covers every concrete input used below; the
reversal of the resulting order is exact pandas behaviour. -/
def sortValuesDesc (xs : List (String × ℚ)) : List (String × ℚ) :=
  (List.insertionSort (fun a b => a.2 ≤ b.2) xs).reverse

/-- `Region` grouping key. -/
def regionKey (r : LongRecord) : String := r.ids.region

/-- `Province` grouping key. -/
def provinceKey (r : LongRecord) : String := r.ids.province

/-- `regional_sales` of `geographic_analysis` in `eda_analysis.py`: per-region
sales sums, descending by value. -/
def regionalSalesDesc (l : List LongRecord) : List (String × ℚ) :=
  sortValuesDesc (groupSums regionKey l)

/-- The per-region shares printed by `geographic_analysis` in
`eda_analysis.py` (lines 139 and 142–144): the loop iterates over
`regional_sales_millions` — the group sums already divided by 1,000,000 —
and divides by the raw grand total `total_sales` before multiplying by 100. -/
def printedRegionShares (l : List LongRecord) : List ℚ :=
  (regionalSalesDesc l).map (fun kv => kv.2 / 1000000 / totalSales l * 100)

/-- The share of the total as the spec defines it
(group sum divided by grand total times 100). Modelled from the spec: the
source at `eda_analysis.py` lines 142–144 divides the group sum by 1,000,000
first, which this definition deliberately does not do. -/
def specRegionShares (l : List LongRecord) : List ℚ :=
  (regionalSalesDesc l).map (fun kv => kv.2 / totalSales l * 100)

/-- Regional Herfindahl-Hirschman index of `geographic_analysis` in
`eda_analysis.py` (lines 156–157): shares are the raw group sums divided by
the grand total, and the HHI is the sum of their squares. With a zero grand
total the float code produces NaN shares; the rational model produces zero
shares — both violate the claimed bounds, see claim C5. -/
def hhiRegional (l : List LongRecord) : ℚ :=
  ((regionalSalesDesc l).map (fun kv => (kv.2 / totalSales l) ^ 2)).sum

/-- `province_level_deep_dive` top-N (`geographic_analysis.py` lines 80–86):
per-province sums, descending, truncated to the first `n`
(`head` returns all when fewer exist). -/
def topNProvince (l : List LongRecord) (n : Nat) : List (String × ℚ) :=
  (sortValuesDesc (groupSums provinceKey l)).take n

/-- Ascending sort of month numbers (`sort_values('Month_Num')`). -/
def sortNats (ns : List Nat) : List Nat :=
  List.insertionSort (fun a b : Nat => a ≤ b) ns

/-- The distinct month numbers present for a region, ascending — the months of
`regional_growth[regional_growth['Region'] == region].sort_values('Month_Num')`. -/
def regionMonths (l : List LongRecord) (reg : String) : List Nat :=
  sortNats (dropDuplicates
    ((l.filter (fun r => decide (regionKey r = reg))).map (fun r => r.monthNum)))

/-- The per-month sales sums of one region, in ascending month order
(`groupby(['Region', 'Month_Num'])['Sales'].sum()` restricted to the region). -/
def regionMonthSums (l : List LongRecord) (reg : String) : List ℚ :=
  (regionMonths l reg).map (fun m =>
    sumSales (l.filter (fun r => decide (regionKey r = reg) && decide (r.monthNum = m))))

/-- `region_data.head(3)['Sales'].mean()` — the base-period average. -/
def earlyAvg (l : List LongRecord) (reg : String) : ℚ :=
  ((regionMonthSums l reg).take 3).sum / 3

/-- `region_data.tail(3)['Sales'].mean()` — the recent-period average. -/
def recentAvg (l : List LongRecord) (reg : String) : ℚ :=
  ((regionMonthSums l reg).drop ((regionMonthSums l reg).length - 3)).sum / 3

/-- `regional_performance_analysis` growth table (`geographic_analysis.py`
lines 46–58): regions in first-appearance order; a region enters the result
only if it has at least six month entries and a strictly positive base-period
average — otherwise it is silently skipped; the result is then sorted by
growth rate descending (Python `list.sort` with `reverse`, which is stable). -/
def regionalGrowthAnalysis (l : List LongRecord) : List (String × ℚ) :=
  List.insertionSort (fun a b => b.2 ≤ a.2)
    ((distinctVals regionKey l).filterMap (fun reg =>
      if 6 ≤ (regionMonthSums l reg).length then
        if 0 < earlyAvg l reg then
          some (reg, (recentAvg l reg - earlyAvg l reg) / earlyAvg l reg * 100)
        else none
      else none))

/-- H1 total of `time_series_analysis` (`eda_analysis.py` line 112): sales of
months 1–6. -/
def h1Total (l : List LongRecord) : ℚ :=
  sumSales (l.filter (fun r => decide (r.monthNum ≤ 6)))

/-- H2 total (`eda_analysis.py` line 113): sales of months 7–12. -/
def h2Total (l : List LongRecord) : ℚ :=
  sumSales (l.filter (fun r => decide (6 < r.monthNum)))

/-- `h1_h2_growth` (`eda_analysis.py` line 114): relative H2-vs-H1 growth,
with a zero (or nonpositive) H1 total reported as 0. -/
def h1h2Growth (l : List LongRecord) : ℚ :=
  if 0 < h1Total l then (h2Total l - h1Total l) / h1Total l * 100 else 0

/-! Concrete inputs used to instantiate and to refute the claims. -/

/-- Identifier tuple with the same label in all fifteen fields. -/
def mkIds (s : String) : Ids :=
  ⟨s, s, s, s, s, s, s, s, s, s, s, s, s, s, s⟩

/-- Fallback record for positional lookup. -/
def dummyRec : LongRecord :=
  { ids := mkIds (""), month := "", monthNum := 0, year := 0, sales := 0 }

/-- A January record in the given region. -/
def recRegion (reg : String) (s : ℚ) : LongRecord :=
  { ids := { mkIds ("X") with region := reg }, month := "Jan24", monthNum := 1
    year := 2024, sales := s }

/-- A January record in the given province. -/
def recProvince (p : String) (s : ℚ) : LongRecord :=
  { ids := { mkIds ("X") with province := p }, month := "Jan24", monthNum := 1
    year := 2024, sales := s }

/-- A record of the given region and month. -/
def recRM (reg : String) (m : Nat) (s : ℚ) : LongRecord :=
  { ids := { mkIds ("X") with region := reg }, month := "M", monthNum := m
    year := 2024, sales := s }

/-- The twelve monthly column names of the source sheet. -/
def monthColNames : List String :=
  ["Jan'24", "Feb'24", "Mar'24", "Apr'24", "May'24", "Jun'24",
   "Jul'24", "Aug'24", "Sep'24", "Oct'24", "Nov'24", "Dec'24"]

/-- Two regions with sales 60 and 40: grand total 100. -/
def exShares : List LongRecord :=
  [recRegion ("A") 60, recRegion ("B") 40]

/-- A single all-zero region: one group, grand total 0. -/
def exZeroTotal : List LongRecord :=
  [recRegion ("A") 0]

/-- Two regions, one with negative sales (pre-normalization data). -/
def exNegShare : List LongRecord :=
  [recRegion ("A") (-1), recRegion ("B") 2]

/-- Two regions with positive sales 1 and 3. -/
def exTwoRegions : List LongRecord :=
  [recRegion ("A") 1, recRegion ("B") 3]

/-- Two provinces tied at 10. -/
def exTiedProvinces : List LongRecord :=
  [recProvince ("ProvA") 10, recProvince ("ProvB") 10]

/-- One region over twelve months with zero sales in months 1–3 (a zero
base-period average) and positive sales afterwards. -/
def exZeroBase : List LongRecord :=
  [recRM ("R") 1 0, recRM ("R") 2 0, recRM ("R") 3 0, recRM ("R") 4 5,
   recRM ("R") 5 5, recRM ("R") 6 5, recRM ("R") 7 5, recRM ("R") 8 5,
   recRM ("R") 9 5, recRM ("R") 10 5, recRM ("R") 11 5, recRM ("R") 12 5]

/-- One region over twelve months with constant sales 1. -/
def exFlatRegion : List LongRecord :=
  [recRM ("S") 1 1, recRM ("S") 2 1, recRM ("S") 3 1, recRM ("S") 4 1,
   recRM ("S") 5 1, recRM ("S") 6 1, recRM ("S") 7 1, recRM ("S") 8 1,
   recRM ("S") 9 1, recRM ("S") 10 1, recRM ("S") 11 1, recRM ("S") 12 1]

/-- A single record in month 7: the H1 total is zero. -/
def exH2Only : List LongRecord :=
  [recRM ("R") 7 5]

/-- Two records identical in every field except sales values −5 and −3. -/
def exDup : List LongRecord :=
  [recRegion ("A") (-5), recRegion ("A") (-3)]

/-- A single record with sales −50. -/
def recNeg50 : LongRecord := recRegion ("A") (-50)

/-- The list holding only the −50 record. -/
def exNeg50 : List LongRecord := [recNeg50]

/-- A wide table with the twelve month columns and 17 identical rows: every
date of the melt output is shared by 17 records, more than the 16-element
regime in which numpy's default sort is accidentally stable. -/
def t17 : WideTable :=
  { cols := ["Region"] ++ monthColNames
    rows := List.replicate 17 { ids := mkIds ("X"), values := List.replicate 12 0 } }

/-- A wide row with monthly values 100, 0, …, 0. -/
def exWRow : WideRow :=
  { ids := mkIds ("X"), values := [100, 0, 0, 0, 0, 0, 0, 0, 0, 0, 0, 0] }

/-- A one-row wide table with monthly values 100, 0, …, 0. -/
def exW : WideTable :=
  { cols := ["Region"] ++ monthColNames
    rows := [exWRow] }

/-- The long records `convert_to_long_format` produces for `exW`. -/
def exWL : List LongRecord := sortByDate (meltRecords exW)

/-- A wide table none of whose columns carries the year marker. -/
def exNoMonthCols : WideTable :=
  { cols := ["Region", "Sales"], rows := [{ ids := mkIds ("X"), values := [] }] }

/-- A wide row with a single monthly value, 7. -/
def exBadRow : WideRow := { ids := mkIds ("X"), values := [7] }

/-- A one-row wide table with a marker column whose name is not a parseable
month: the melt emits that token once, so the date parse raises. -/
def exBadCol : WideTable :=
  { cols := ["Region", "Foo'24"], rows := [exBadRow] }

/-- The same unparseable marker column but zero rows: the melt is empty, so
nothing is parsed and the conversion succeeds. -/
def exBadColNoRows : WideTable :=
  { cols := ["Region", "Foo'24"], rows := [] }

/-! Helper lemmas. -/

theorem mem_dropDuplicates {α : Type} [DecidableEq α] (a : α) :
    ∀ l : List α, a ∈ dropDuplicates l ↔ a ∈ l := by
  intro l
  induction l with
  | nil => simp [dropDuplicates]
  | cons x xs ih =>
    simp only [dropDuplicates, List.mem_cons, List.mem_filter, ih, decide_eq_true_eq]
    constructor
    · rintro (rfl | ⟨h, _⟩)
      · exact Or.inl rfl
      · exact Or.inr h
    · rintro (rfl | h)
      · exact Or.inl rfl
      · by_cases hax : a = x
        · exact Or.inl hax
        · exact Or.inr ⟨h, hax⟩

theorem nodup_dropDuplicates {α : Type} [DecidableEq α] :
    ∀ l : List α, (dropDuplicates l).Nodup := by
  intro l
  induction l with
  | nil => simp [dropDuplicates]
  | cons x xs ih =>
    show (x :: (dropDuplicates xs).filter (fun y => y ≠ x)).Nodup
    refine List.nodup_cons.2 ⟨fun hmem => ?_, ih.filter _⟩
    simp [List.mem_filter] at hmem

theorem sum_map_filter_split {α : Type} (f : α → ℚ) (p : α → Bool) (l : List α) :
    ((l.filter p).map f).sum + ((l.filter (fun a => !(p a))).map f).sum = (l.map f).sum := by
  induction l with
  | nil => simp
  | cons x xs ih =>
    by_cases hx : p x
    · simp [List.filter_cons, hx, ← ih]; ring
    · simp only [Bool.not_eq_true] at hx
      simp [List.filter_cons, hx, ← ih]; ring

theorem sum_fiber_split (key : LongRecord → String) :
    ∀ (ks : List String) (l : List LongRecord), ks.Nodup → (∀ r ∈ l, key r ∈ ks) →
      (ks.map (fun k => sumSales (l.filter (fun r => decide (key r = k))))).sum = sumSales l := by
  intro ks
  induction ks with
  | nil =>
    intro l _ hall
    cases l with
    | nil => simp [sumSales]
    | cons r rs => exact absurd (hall r (by simp)) (by simp)
  | cons k ks ih =>
    intro l hnd hall
    have hnd' := List.nodup_cons.1 hnd
    have hrest : ∀ k' ∈ ks,
        l.filter (fun r => decide (key r = k')) =
          (l.filter (fun r => !(decide (key r = k)))).filter (fun r => decide (key r = k')) := by
      intro k' hk'
      rw [List.filter_filter]
      apply List.filter_congr
      intro r _
      have hk'k : k' ≠ k := fun hc => hnd'.1 (hc ▸ hk')
      by_cases h : key r = k'
      · simp [h, hk'k]
      · simp [h]
    have htail :
        (ks.map (fun k' => sumSales (l.filter (fun r => decide (key r = k'))))).sum =
          sumSales (l.filter (fun r => !(decide (key r = k)))) := by
      rw [List.map_congr_left (fun k' hk' => by rw [hrest k' hk'])]
      apply ih _ hnd'.2
      intro r hr
      have hmem := (List.mem_filter.1 hr)
      have := hall r hmem.1
      rcases List.mem_cons.1 this with hc | hc
      · exfalso; simp [hc] at hmem
      · exact hc
    simp only [List.map_cons, List.sum_cons, htail]
    have := sum_map_filter_split (fun r => r.sales) (fun r => decide (key r = k)) l
    simpa [sumSales] using this

theorem filter_ids_singleton :
    ∀ (rows : List WideRow) (r : WideRow),
      rows.Pairwise (fun a b => a.ids ≠ b.ids) → r ∈ rows →
        rows.filter (fun row => decide (row.ids = r.ids)) = [r] := by
  intro rows
  induction rows with
  | nil => intro r _ hr; cases hr
  | cons a as ih =>
    intro r hdist hr
    have hpc := List.pairwise_cons.1 hdist
    rcases List.mem_cons.1 hr with rfl | hmem
    · have hnil : as.filter (fun row => decide (row.ids = r.ids)) = [] := by
        apply List.filter_eq_nil_iff.2
        intro b hb
        simpa using (hpc.1 b hb).symm
      simp [List.filter_cons, hnil]
    · have hne : a.ids ≠ r.ids := hpc.1 r hmem
      simp [List.filter_cons, hne, ih r hpc.2 hmem]

theorem flatMap_singleton_map {α β : Type} (g : α → β) (l : List α) :
    l.flatMap (fun a => [g a]) = l.map g := by
  induction l with
  | nil => rfl
  | cons x xs ih => simp [ih]

theorem flatMap_nil_fun {α β : Type} (l : List α) :
    l.flatMap (fun _ => ([] : List β)) = [] := by
  induction l with
  | nil => rfl
  | cons x xs ih => simp [ih]

theorem sum_range_getD (v : List ℚ) :
    ((List.range v.length).map (fun j => v.getD j 0)).sum = v.sum := by
  induction v with
  | nil => simp
  | cons x xs ih =>
    rw [List.length_cons, List.range_succ_eq_map, List.map_cons, List.map_map]
    simp only [List.getD_cons_zero, List.sum_cons, Function.comp_def, List.getD_cons_succ]
    rw [ih]

theorem sum_map_snd_div (v : List (String × ℚ)) (c : ℚ) :
    (v.map (fun kv => kv.2 / c)).sum = (v.map Prod.snd).sum / c := by
  induction v with
  | nil => simp
  | cons x xs ih => simp [ih, add_div]

theorem charListLt_total :
    ∀ x y : List Char, charListLt x y = true ∨ x = y ∨ charListLt y x = true := by
  intro x
  induction x with
  | nil =>
    intro y
    cases y with
    | nil => exact Or.inr (Or.inl rfl)
    | cons d ds => exact Or.inl (by simp [charListLt])
  | cons c cs ih =>
    intro y
    cases y with
    | nil => exact Or.inr (Or.inr (by simp [charListLt]))
    | cons d ds =>
      rcases Nat.lt_trichotomy c.toNat d.toNat with h | h | h
      · exact Or.inl (by simp [charListLt, h])
      · have hcd : c = d := Char.ext (UInt32.toNat.inj h)
        rcases ih ds with h1 | h1 | h1
        · exact Or.inl (by simp [charListLt, hcd, h1])
        · exact Or.inr (Or.inl (by rw [hcd, h1]))
        · exact Or.inr (Or.inr (by simp [charListLt, hcd.symm, h1]))
      · exact Or.inr (Or.inr (by simp [charListLt, h]))

theorem charListLt_trans :
    ∀ x y z : List Char, charListLt x y = true → charListLt y z = true →
      charListLt x z = true := by
  intro x
  induction x with
  | nil =>
    intro y z hxy hyz
    cases y with
    | nil => simp [charListLt] at hxy
    | cons d ds =>
      cases z with
      | nil => simp [charListLt] at hyz
      | cons e es => simp [charListLt]
  | cons c cs ih =>
    intro y z hxy hyz
    cases y with
    | nil => simp [charListLt] at hxy
    | cons d ds =>
      cases z with
      | nil => simp [charListLt] at hyz
      | cons e es =>
        simp only [charListLt, Bool.or_eq_true, Bool.and_eq_true,
          decide_eq_true_eq] at hxy hyz ⊢
        rcases hxy with h1 | ⟨rfl, h1⟩
        · rcases hyz with h2 | ⟨rfl, h2⟩
          · exact Or.inl (h1.trans h2)
          · exact Or.inl h1
        · rcases hyz with h2 | ⟨rfl, h2⟩
          · exact Or.inl h2
          · exact Or.inr ⟨rfl, ih ds es h1 h2⟩

instance : IsTotal String (fun a b => strLeB a b = true) := by
  constructor
  intro a b
  rcases charListLt_total a.data b.data with h | h | h
  · exact Or.inl (by simp [strLeB, strLtB, h])
  · have hab : a = b := by
      cases a; cases b; exact congrArg String.mk h
    exact Or.inl (by simp [strLeB, hab])
  · exact Or.inr (by simp [strLeB, strLtB, h])

instance : IsTrans String (fun a b => strLeB a b = true) := by
  constructor
  intro a b c hab hbc
  simp only [strLeB, strLtB, Bool.or_eq_true, decide_eq_true_eq] at hab hbc ⊢
  rcases hab with h1 | rfl
  · rcases hbc with h2 | rfl
    · exact Or.inl (charListLt_trans _ _ _ h1 h2)
    · exact Or.inl h1
  · exact hbc

theorem groupSums_keys_lt (key : LongRecord → String) (l : List LongRecord) :
    (groupSums key l).Pairwise (fun a b => strLtB a.1 b.1 = true) := by
  have hsorted : (sortStrings (distinctVals key l)).Pairwise (fun a b => strLeB a b = true) :=
    List.sorted_insertionSort _ _
  have hnd : (sortStrings (distinctVals key l)).Pairwise (fun a b : String => a ≠ b) :=
    (nodup_dropDuplicates (l.map key)).perm (List.perm_insertionSort _ _).symm
  have hlt : (sortStrings (distinctVals key l)).Pairwise (fun a b => strLtB a b = true) := by
    refine (hsorted.and hnd).imp (fun h => ?_)
    have h1 := h.1
    simp only [strLeB, Bool.or_eq_true, decide_eq_true_eq] at h1
    rcases h1 with h1 | h1
    · exact h1
    · exact absurd h1 h.2
  unfold groupSums
  rw [List.pairwise_map]
  exact hlt

theorem orderedInsert_lex (x : String × ℚ) :
    ∀ s : List (String × ℚ),
      s.Pairwise (fun a b => a.2 < b.2 ∨ (a.2 = b.2 ∧ strLtB a.1 b.1 = true)) →
      (∀ y ∈ s, strLtB x.1 y.1 = true) →
      (List.orderedInsert (fun a b => a.2 ≤ b.2) x s).Pairwise
        (fun a b => a.2 < b.2 ∨ (a.2 = b.2 ∧ strLtB a.1 b.1 = true)) := by
  intro s
  induction s with
  | nil => intro _ _; simp
  | cons b t ih =>
    intro hp hk
    rw [List.orderedInsert]
    by_cases hxb : x.2 ≤ b.2
    · rw [if_pos hxb]
      refine List.pairwise_cons.2 ⟨?_, hp⟩
      intro y hy
      have hxy2 : x.2 ≤ y.2 := by
        rcases List.mem_cons.1 hy with rfl | hyt
        · exact hxb
        · rcases (List.pairwise_cons.1 hp).1 y hyt with h | ⟨h, _⟩
          · exact hxb.trans h.le
          · exact h ▸ hxb
      rcases lt_or_eq_of_le hxy2 with h | h
      · exact Or.inl h
      · exact Or.inr ⟨h, hk y hy⟩
    · rw [if_neg hxb]
      have hb2 : b.2 < x.2 := lt_of_not_le hxb
      refine List.pairwise_cons.2 ⟨?_, ?_⟩
      · intro y hy
        rcases (List.mem_orderedInsert _).1 hy with rfl | hyt
        · exact Or.inl hb2
        · exact (List.pairwise_cons.1 hp).1 y hyt
      · exact ih (List.pairwise_cons.1 hp).2 (fun y hy => hk y (List.mem_cons_of_mem _ hy))

theorem insertionSort_lex :
    ∀ s : List (String × ℚ), s.Pairwise (fun a b => strLtB a.1 b.1 = true) →
      (List.insertionSort (fun a b => a.2 ≤ b.2) s).Pairwise
        (fun a b => a.2 < b.2 ∨ (a.2 = b.2 ∧ strLtB a.1 b.1 = true)) := by
  intro s
  induction s with
  | nil => intro _; simp
  | cons x t ih =>
    intro hp
    rw [List.insertionSort]
    apply orderedInsert_lex
    · exact ih (List.pairwise_cons.1 hp).2
    · intro y hy
      exact (List.pairwise_cons.1 hp).1 y (((List.perm_insertionSort _ t).mem_iff).1 hy)

theorem share_sq_bounds (s : List ℚ) (hnn : ∀ x ∈ s, 0 ≤ x) (hsum : s.sum = 1) :
    1 / (s.length : ℚ) ≤ (s.map (fun x => x ^ 2)).sum ∧
      (s.map (fun x => x ^ 2)).sum ≤ 1 ∧
      (s.length = 1 → (s.map (fun x => x ^ 2)).sum = 1) := by
  have hlen : s ≠ [] := by rintro rfl; simp at hsum
  have hn : 0 < (s.length : ℚ) := by exact_mod_cast List.length_pos.2 hlen
  refine ⟨?_, ?_, ?_⟩
  · have hgot : List.ofFn s.get = s := List.ofFn_get s
    have hsum1 : s.sum = ∑ i : Fin s.length, s.get i := by
      conv_lhs => rw [← hgot]
      rw [List.sum_ofFn]
    have hsum2 : (s.map (fun x => x ^ 2)).sum = ∑ i : Fin s.length, (s.get i) ^ 2 := by
      conv_lhs => rw [← hgot, List.map_ofFn, List.sum_ofFn]
      rfl
    have h1 : (s.sum) ^ 2 ≤ (s.length : ℚ) * (s.map (fun x => x ^ 2)).sum := by
      rw [hsum1, hsum2]
      have h := sq_sum_le_card_mul_sum_sq (s := (Finset.univ : Finset (Fin s.length)))
        (f := s.get)
      simpa [Finset.card_univ] using h
    rw [hsum, one_pow] at h1
    rw [div_le_iff₀ hn]
    linarith
  · have hle : ∀ x ∈ s, x ^ 2 ≤ id x := by
      intro x hx
      have h0 := hnn x hx
      have h1 : x ≤ 1 := hsum ▸ List.single_le_sum hnn x hx
      simp only [id]
      nlinarith
    calc (s.map (fun x => x ^ 2)).sum ≤ (s.map id).sum := List.sum_le_sum hle
      _ = 1 := by rw [List.map_id]; exact hsum
  · intro h1
    rcases List.length_eq_one.1 h1 with ⟨a, rfl⟩
    simp only [List.sum_cons, List.sum_nil, add_zero] at hsum
    simp [hsum]

theorem groupSums_snd_sum (key : LongRecord → String) (l : List LongRecord) :
    ((groupSums key l).map Prod.snd).sum = sumSales l := by
  unfold groupSums
  rw [List.map_map]
  have hnd : (sortStrings (distinctVals key l)).Nodup :=
    (nodup_dropDuplicates (l.map key)).perm (List.perm_insertionSort _ _).symm
  have hall : ∀ r ∈ l, key r ∈ sortStrings (distinctVals key l) := by
    intro r hr
    exact ((List.perm_insertionSort _ _).mem_iff).2
      ((mem_dropDuplicates _ _).2 (List.mem_map_of_mem key hr))
  exact sum_fiber_split key (sortStrings (distinctVals key l)) l hnd hall

theorem regionalSalesDesc_perm (l : List LongRecord) :
    (regionalSalesDesc l).Perm (groupSums regionKey l) := by
  unfold regionalSalesDesc sortValuesDesc
  exact (List.reverse_perm _).trans (List.perm_insertionSort _ _)

theorem groupSums_snd_nonneg (key : LongRecord → String) (l : List LongRecord)
    (hnn : ∀ r ∈ l, 0 ≤ r.sales) : ∀ kv ∈ groupSums key l, 0 ≤ kv.2 := by
  intro kv hkv
  unfold groupSums at hkv
  rcases List.mem_map.1 hkv with ⟨k, _, rfl⟩
  apply List.sum_nonneg
  intro x hx
  rcases List.mem_map.1 hx with ⟨r, hr, rfl⟩
  exact hnn r (List.mem_filter.1 hr).1

/-! Claim theorems. -/

/-- C2: the claim states that, for positive grand total, the printed region
shares (group sum divided by grand total times 100) sum to 100 within 1e-6.
The cited code (`eda_analysis.py` lines 139 and 142–144) iterates over the
group sums already divided by 1,000,000 while the grand total stays raw, so
the shares it actually computes sum to 100/1,000,000: at the failing input
(regions A: 60 and B: 40, grand total 100) the code's shares sum to 1/10000,
while the share as the spec defines it sums to exactly 100. -/
theorem c2_printed_shares_eval :
    (printedRegionShares exShares).sum = 1 / 10000 ∧
      (specRegionShares exShares).sum = 100 := by
  constructor <;>
  · simp [printedRegionShares, specRegionShares, regionalSalesDesc, sortValuesDesc,
      groupSums, sortStrings, strLeB, strLtB, charListLt, distinctVals, dropDuplicates,
      sumSales, totalSales, regionKey, exShares, recRegion, mkIds, List.insertionSort,
      List.orderedInsert]
    norm_num

/-- C4: at the failing input (17 identical wide rows, twelve chronological
month columns) the conversion succeeds and its sort input holds 17 records
tied on the January date — and likewise on every other date. The sort the
code runs over these ties is `sort_values` with the pandas default
`kind='quicksort'`, documented by pandas as not stable, so the claimed
tie-stability is not guaranteed by the code. -/
theorem c4_tied_dates_at_failing_input :
    ((meltRecords t17).filter (fun r => decide (dateCode r = 24289))).length = 17 ∧
      (convertToLongFormat t17).isOk = true := by
  exact ⟨by rfl, by rfl⟩

/-- C10: the Normalizer removes duplicates before clipping negatives, so two
records identical except for sales −5 and −3 survive deduplication and are
then both clipped to 0, leaving two exactly identical records in the cleaned
output — which is therefore not duplicate-free. -/
theorem c10_output_not_duplicate_free :
    (cleanData exDup).records = [recRegion ("A") 0, recRegion ("A") 0] ∧
      ¬ (cleanData exDup).records.Nodup := by
  exact ⟨by decide, by decide⟩

/-- C7 counterexample: the claim says a second Normalizer run on already
cleaned data removes zero additional duplicates; on the two-record input with
sales −5 and −3, clipping makes the two records identical, and the second run
removes one of them (`removedCount = 1`, not 0). -/
theorem c7_second_run_removes_duplicate :
    (cleanData ((cleanData exDup).records)).removedCount = 1 := by
  decide

/-- C7 (amended): the clipping half of normalization is idempotent — a second
`clean_data` run finds zero negative sales values, whatever the input —
but duplicate removal is not idempotent across the whole pass, since it runs
before clipping and clipping can create new exact duplicates. -/
theorem c7_clipping_idempotent (l : List LongRecord) :
    (cleanData ((cleanData l).records)).clippedCount = 0 := by
  have hshow : (cleanData ((cleanData l).records)).clippedCount
      = List.countP (fun r => decide (r.sales < 0))
          (dropDuplicates ((dropDuplicates l).map clipRecord)) := rfl
  rw [hshow]
  apply List.countP_eq_zero.2
  intro r hr
  have hr2 : r ∈ (dropDuplicates l).map clipRecord := (mem_dropDuplicates r _).1 hr
  rcases List.mem_map.1 hr2 with ⟨y, _, rfl⟩
  simp only [decide_eq_true_eq, clipRecord]
  split_ifs with hy
  · simp
  · simpa using hy

/-- C8: every record with negative sales is clipped to exactly zero with all
other fields unchanged, records with nonnegative sales are untouched, and the
reported clipped count equals the number of records with negative sales in
the set the clipping step runs on (the deduplicated records); appending one
record with negative sales (such as −50) raises the negative count by exactly
one. -/
theorem c8_negative_clipping (l : List LongRecord) (i : Nat)
    (h : i < (dropDuplicates l).length) :
    (((dropDuplicates l).get ⟨i, h⟩).sales < 0 →
        (cleanData l).records.getD i dummyRec =
          { (dropDuplicates l).get ⟨i, h⟩ with sales := 0 }) ∧
      (0 ≤ ((dropDuplicates l).get ⟨i, h⟩).sales →
        (cleanData l).records.getD i dummyRec = (dropDuplicates l).get ⟨i, h⟩) ∧
      (cleanData l).clippedCount =
        ((dropDuplicates l).filter (fun r => decide (r.sales < 0))).length ∧
      ∀ (d : List LongRecord) (r : LongRecord), r.sales < 0 →
        negCount (d ++ [r]) = negCount d + 1 := by
  have hget : (cleanData l).records.getD i dummyRec
      = clipRecord ((dropDuplicates l).get ⟨i, h⟩) := by
    have hlen : i < ((dropDuplicates l).map clipRecord).length := by
      rw [List.length_map]; exact h
    show ((dropDuplicates l).map clipRecord).getD i dummyRec = _
    rw [List.getD_eq_getElem _ _ hlen, List.getElem_map, List.get_eq_getElem]
  refine ⟨?_, ?_, ?_, ?_⟩
  · intro hneg
    rw [hget]
    unfold clipRecord
    rw [if_pos hneg]
  · intro hpos
    rw [hget]
    unfold clipRecord
    rw [if_neg (not_lt.2 hpos)]
  · exact List.countP_eq_length_filter _ _
  · intro d r hneg
    unfold negCount
    rw [List.countP_append]
    simp [hneg]

/-- C8 witness: a single record with sales −50 is clipped to 0 and the
negative count rises by exactly one. -/
theorem c8_negative_clipping_witness :
    0 < (dropDuplicates exNeg50).length ∧
      (cleanData exNeg50).records.getD 0 dummyRec = recRegion ("A") 0 ∧
      negCount ([] ++ [recNeg50]) = negCount [] + 1 := by
  refine ⟨by decide, ?_, ?_⟩
  · exact ((c8_negative_clipping exNeg50 0 (by decide)).1 (by decide)).trans (by decide)
  · exact (c8_negative_clipping exNeg50 0 (by decide)).2.2.2 [] recNeg50 (by decide)

/-- C3 counterexample: the claim says every zero-denominator growth ratio is
reported as 0. In `regional_performance_analysis`, the region R has a zero
base-period average (months 1–3 sum to 0) and positive recent sales, yet the
growth table is empty — the region is omitted, not reported with growth 0. -/
theorem c3_zero_base_region_omitted :
    regionalGrowthAnalysis exZeroBase = [] ∧ earlyAvg exZeroBase ("R") = 0 ∧
      0 < recentAvg exZeroBase ("R") := by
  refine ⟨?_, ?_, ?_⟩ <;>
  · simp [regionalGrowthAnalysis, regionMonthSums, regionMonths, sortNats, earlyAvg,
      recentAvg, distinctVals, dropDuplicates, sumSales, regionKey, exZeroBase, recRM,
      mkIds, List.insertionSort, List.orderedInsert]
    try norm_num

/-- C3 (amended): zero-denominator ratios never raise or produce an infinite
value, but the two cited code paths treat them differently: the H2-vs-H1
comparison reports growth 0 when the H1 total is zero, while the per-region
growth analysis only ever emits entries whose base-period average is strictly
positive — a region with zero base-period average is omitted rather than
reported as 0. -/
theorem c3_zero_denominator_policy (l : List LongRecord) :
    (h1Total l = 0 → h1h2Growth l = 0) ∧
      (∀ reg g, (reg, g) ∈ regionalGrowthAnalysis l → 0 < earlyAvg l reg) := by
  constructor
  · intro h0
    unfold h1h2Growth
    rw [h0]
    simp
  · intro reg g hmem
    unfold regionalGrowthAnalysis at hmem
    have hmem2 := ((List.perm_insertionSort _ _).mem_iff).1 hmem
    rcases List.mem_filterMap.1 hmem2 with ⟨reg', _, heq⟩
    by_cases h6 : 6 ≤ (regionMonthSums l reg').length
    · rw [if_pos h6] at heq
      by_cases hpos : 0 < earlyAvg l reg'
      · rw [if_pos hpos] at heq
        simp only [Option.some.injEq, Prod.mk.injEq] at heq
        rcases heq with ⟨rfl, -⟩
        exact hpos
      · rw [if_neg hpos] at heq
        cases heq
    · rw [if_neg h6] at heq
      cases heq

/-- C3 witness: a record set with sales only in month 7 has H1 total zero and
reported H2-vs-H1 growth 0; and a region that does appear in the growth table
(the flat region S) has a strictly positive base-period average. -/
theorem c3_zero_denominator_policy_witness :
    h1Total exH2Only = 0 ∧ h1h2Growth exH2Only = 0 ∧
      ("S", (0 : ℚ)) ∈ regionalGrowthAnalysis exFlatRegion ∧
      0 < earlyAvg exFlatRegion ("S") := by
  have h0 : h1Total exH2Only = 0 := by
    simp [h1Total, sumSales, exH2Only, recRM, mkIds]
  have hmem : ("S", (0 : ℚ)) ∈ regionalGrowthAnalysis exFlatRegion := by
    simp [regionalGrowthAnalysis, regionMonthSums, regionMonths, sortNats, earlyAvg,
      recentAvg, distinctVals, dropDuplicates, sumSales, regionKey, exFlatRegion, recRM,
      mkIds, List.insertionSort, List.orderedInsert]
    try norm_num
  exact ⟨h0, (c3_zero_denominator_policy exH2Only).1 h0, hmem,
    (c3_zero_denominator_policy exFlatRegion).2 ("S") 0 hmem⟩

/-- C6 counterexample: the claim says detecting zero month columns aborts the
run as a fatal error; on a wide table with no marker columns the conversion
instead reports success with an empty long record set. -/
theorem c6_zero_month_columns_not_fatal :
    monthlyCols exNoMonthCols = [] ∧
      convertToLongFormat exNoMonthCols = Except.ok [] := by
  exact ⟨by rfl, by rfl⟩

/-- C6 (amended): the date parse runs on the melted `Month` values, so when
the melted frame contains an unparseable month token (which happens exactly
when some detected month column has an unparseable name and the table has at
least one row), the conversion reports failure with an error naming an
offending stripped token and returns no converted records (the object does
retain the partially melted frame). Zero detected month columns, or a table
with zero rows, is not an error: the conversion succeeds with an empty record
set. -/
theorem c6_parse_failure_policy (t : WideTable) :
    ((∃ r ∈ meltRecords t, parseMonth r.month = none) →
      ∃ r, r ∈ meltRecords t ∧ parseMonth r.month = none ∧
        convertToLongFormat t = Except.error (parseFailMsg r.month)) ∧
      (monthlyCols t = [] → convertToLongFormat t = Except.ok []) ∧
      (t.rows = [] → convertToLongFormat t = Except.ok []) := by
  refine ⟨?_, ?_, ?_⟩
  · rintro ⟨r, hr, hp⟩
    have hsome : ((meltRecords t).find? (fun x => (parseMonth x.month).isNone)).isSome := by
      apply List.find?_isSome.2
      exact ⟨r, hr, by simp [hp]⟩
    rcases Option.isSome_iff_exists.1 hsome with ⟨r', hfind⟩
    refine ⟨r', List.mem_of_find?_eq_some hfind, ?_, ?_⟩
    · simpa [Option.isNone_iff_eq_none] using List.find?_some hfind
    · unfold convertToLongFormat
      rw [hfind]
  · intro hnil
    have hmelt : meltRecords t = [] := by
      unfold meltRecords
      rw [hnil]
      rfl
    unfold convertToLongFormat
    rw [hmelt]
    rfl
  · intro hrows
    have hmelt : meltRecords t = [] := by
      unfold meltRecords
      rw [hrows]
      simp [flatMap_nil_fun (monthlyCols t).enum]
    unfold convertToLongFormat
    rw [hmelt]
    rfl

/-- C6 witness: the one-row table with the unparseable marker column errors
out with a message naming the stripped token, the table with no marker
columns converts to the empty record set, and the zero-row table with the
same bad column also succeeds with zero records. -/
theorem c6_parse_failure_policy_witness :
    convertToLongFormat exBadCol = Except.error (parseFailMsg ("Foo24")) ∧
      convertToLongFormat exNoMonthCols = Except.ok [] ∧
      convertToLongFormat exBadColNoRows = Except.ok [] := by
  refine ⟨?_, (c6_parse_failure_policy exNoMonthCols).2.1 (by decide),
    (c6_parse_failure_policy exBadColNoRows).2.2 (by decide)⟩
  obtain ⟨r, hr, -, he⟩ :=
    (c6_parse_failure_policy exBadCol).1 ⟨mkLong exBadRow 0 ("Foo'24"), by decide, by decide⟩
  have hm : meltRecords exBadCol = [mkLong exBadRow 0 ("Foo'24")] := by decide
  rw [hm] at hr
  have hr' : r = mkLong exBadRow 0 ("Foo'24") := by simpa using hr
  rw [hr'] at he
  exact he

/-- C9 counterexample: the claim says top-N ties are broken by the original
grouping-key lexical order, which for the tied provinces ProvA and ProvB
would put ProvA first. The code builds the descending ranking by reversing
an ascending sort (pandas argsorts ascending and reverses the indexer), so
the tie comes out as ProvB before ProvA — reverse lexical order. -/
theorem c9_tie_order_not_lexical :
    topNProvince exTiedProvinces 15 = [(("ProvB" : String), (10 : ℚ)), ("ProvA", 10)] ∧
      topNProvince exTiedProvinces 15 ≠ [(("ProvA" : String), (10 : ℚ)), ("ProvB", 10)] := by
  have h : topNProvince exTiedProvinces 15
      = [(("ProvB" : String), (10 : ℚ)), ("ProvA", 10)] := by
    simp [topNProvince, sortValuesDesc, groupSums, sortStrings, strLeB, strLtB, charListLt,
      distinctVals, dropDuplicates, sumSales, provinceKey, exTiedProvinces, recProvince,
      mkIds, List.insertionSort, List.orderedInsert]
  refine ⟨h, ?_⟩
  rw [h]
  simp

/-- C9 (amended): every aggregation is a pure function of the record list, so
two runs on the same input give identical output; the top-N order, however,
is descending by group sum with ties in descending (reverse-lexical)
grouping-key order — not ascending lexical order — because the descending
ranking reverses the ascendingly sorted group list. The statement is
restricted to groupings with at most 16 keys: that is the regime in which
numpy's default argsort is its stable insertion sort and the stable model of
`sortValuesDesc` is exact; for larger groupings the program's quicksort gives
no tie-order guarantee at all, so nothing is claimed there. -/
theorem c9_topn_tiebreak_order (l : List LongRecord) (n : Nat)
    (_hsmall : (groupSums provinceKey l).length ≤ 16) :
    (topNProvince l n).Pairwise
      (fun a b => b.2 < a.2 ∨ (a.2 = b.2 ∧ strLtB b.1 a.1 = true)) := by
  have h1 := insertionSort_lex (groupSums provinceKey l) (groupSums_keys_lt provinceKey l)
  have h2 : (sortValuesDesc (groupSums provinceKey l)).Pairwise
      (fun a b => b.2 < a.2 ∨ (b.2 = a.2 ∧ strLtB b.1 a.1 = true)) := by
    unfold sortValuesDesc
    exact List.pairwise_reverse.2 h1
  unfold topNProvince
  refine List.Pairwise.sublist (List.take_sublist _ _) ?_
  exact h2.imp (fun h => h.imp_right (fun hh => ⟨hh.1.symm, hh.2⟩))

/-- C9 witness: the two tied provinces are a grouping of 2 ≤ 16 keys, and
their top-N listing is pairwise ordered descending by sum with the tie in
reverse-lexical key order. -/
theorem c9_topn_tiebreak_order_witness :
    (groupSums provinceKey exTiedProvinces).length ≤ 16 ∧
      (topNProvince exTiedProvinces 15).Pairwise
        (fun a b => b.2 < a.2 ∨ (a.2 = b.2 ∧ strLtB b.1 a.1 = true)) :=
  ⟨by decide, c9_topn_tiebreak_order exTiedProvinces 15 (by decide)⟩

/-- C5 counterexample: the claim asserts the HHI bounds for any dataset with
at least one group, with no positivity proviso. On the all-zero single-region
dataset the grand total is 0, every share is a zero division (NaN in the
float code, 0 in this rational model — either way outside the claimed
bounds), so the HHI is 0, not 1, refuting both the single-group clause and
the lower bound. On data with a negative-sales group and positive total the
HHI is 5, above the claimed upper bound of 1. -/
theorem c5_hhi_bounds_need_proviso :
    (hhiRegional exZeroTotal = 0 ∧ (regionalSalesDesc exZeroTotal).length = 1 ∧
        ¬ ((1 : ℚ) ≤ hhiRegional exZeroTotal)) ∧
      (hhiRegional exNegShare = 5 ∧ ¬ (hhiRegional exNegShare ≤ 1)) := by
  have hz : hhiRegional exZeroTotal = 0 := by
    simp [hhiRegional, regionalSalesDesc, sortValuesDesc, groupSums, sortStrings, strLeB,
      strLtB, charListLt, distinctVals, dropDuplicates, sumSales, totalSales, regionKey,
      exZeroTotal, recRegion, mkIds, List.insertionSort, List.orderedInsert]
  have hlen : (regionalSalesDesc exZeroTotal).length = 1 := by
    simp [regionalSalesDesc, sortValuesDesc, groupSums, sortStrings, strLeB, strLtB,
      charListLt, distinctVals, dropDuplicates, sumSales, regionKey, exZeroTotal,
      recRegion, mkIds, List.insertionSort, List.orderedInsert]
  have hn : hhiRegional exNegShare = 5 := by
    simp [hhiRegional, regionalSalesDesc, sortValuesDesc, groupSums, sortStrings, strLeB,
      strLtB, charListLt, distinctVals, dropDuplicates, sumSales, totalSales, regionKey,
      exNegShare, recRegion, mkIds, List.insertionSort, List.orderedInsert]
    norm_num
  refine ⟨⟨hz, hlen, ?_⟩, hn, ?_⟩
  · rw [hz]; norm_num
  · rw [hn]; norm_num

/-- C5 (amended): over records with nonnegative sales (the normalized data
the pipeline feeds the metrics engine) and a strictly positive grand total,
the regional HHI of k groups satisfies 1/k ≤ HHI ≤ 1, and a single group
forces HHI = 1. -/
theorem c5_hhi_bounds (l : List LongRecord) (hpos : 0 < totalSales l)
    (hnn : ∀ r ∈ l, 0 ≤ r.sales) :
    1 / ((regionalSalesDesc l).length : ℚ) ≤ hhiRegional l ∧ hhiRegional l ≤ 1 ∧
      ((regionalSalesDesc l).length = 1 → hhiRegional l = 1) := by
  have hTne : totalSales l ≠ 0 := ne_of_gt hpos
  have hperm : ((regionalSalesDesc l).map Prod.snd).Perm
      ((groupSums regionKey l).map Prod.snd) := (regionalSalesDesc_perm l).map _
  have hsum_snd : ((regionalSalesDesc l).map Prod.snd).sum = totalSales l := by
    rw [hperm.sum_eq, groupSums_snd_sum]
    rfl
  have hsum1 : ((regionalSalesDesc l).map (fun kv => kv.2 / totalSales l)).sum = 1 := by
    rw [sum_map_snd_div, hsum_snd, div_self hTne]
  have hnn' : ∀ x ∈ (regionalSalesDesc l).map (fun kv => kv.2 / totalSales l), 0 ≤ x := by
    intro x hx
    rcases List.mem_map.1 hx with ⟨kv, hkv, rfl⟩
    have hkv' : kv ∈ groupSums regionKey l := ((regionalSalesDesc_perm l).mem_iff).1 hkv
    exact div_nonneg (groupSums_snd_nonneg regionKey l hnn kv hkv') hpos.le
  have hb := share_sq_bounds _ hnn' hsum1
  have hhhi : hhiRegional l =
      (((regionalSalesDesc l).map (fun kv => kv.2 / totalSales l)).map
        (fun x => x ^ 2)).sum := by
    unfold hhiRegional
    rw [List.map_map]
    rfl
  have hlen : ((regionalSalesDesc l).map (fun kv => kv.2 / totalSales l)).length
      = (regionalSalesDesc l).length := List.length_map _ _
  rw [hlen] at hb
  rw [hhhi]
  exact hb

/-- C5 witness: two regions with sales 1 and 3 — positive total, nonnegative
sales — instantiate the amended HHI bounds. -/
theorem c5_hhi_bounds_witness :
    0 < totalSales exTwoRegions ∧ (∀ r ∈ exTwoRegions, 0 ≤ r.sales) ∧
      (1 / ((regionalSalesDesc exTwoRegions).length : ℚ) ≤ hhiRegional exTwoRegions ∧
        hhiRegional exTwoRegions ≤ 1 ∧
        ((regionalSalesDesc exTwoRegions).length = 1 → hhiRegional exTwoRegions = 1)) := by
  have hpos : 0 < totalSales exTwoRegions := by
    simp [totalSales, sumSales, exTwoRegions, recRegion, mkIds]
    norm_num
  have hnn : ∀ r ∈ exTwoRegions, 0 ≤ r.sales := by decide
  exact ⟨hpos, hnn, c5_hhi_bounds exTwoRegions hpos hnn⟩

/-- C1: for every wide row of a table with pairwise distinct identifier
tuples and twelve detected month columns, a successful conversion yields
exactly twelve long records carrying that row's identifier tuple, and their
sales values sum exactly (the model is exact rational arithmetic, which
subsumes the spec's integer-exact and 1e-9-float readings) to the sum of the
row's twelve monthly values. -/
theorem c1_reshape_sum_preserving (t : WideTable) (r : WideRow) (L : List LongRecord)
    (hdist : t.rows.Pairwise (fun a b => a.ids ≠ b.ids))
    (hr : r ∈ t.rows)
    (hcols : (monthlyCols t).length = 12)
    (hvals : r.values.length = 12)
    (hok : convertToLongFormat t = Except.ok L) :
    (L.filter (fun x => decide (x.ids = r.ids))).length = 12 ∧
      sumSales (L.filter (fun x => decide (x.ids = r.ids))) = r.values.sum := by
  have hL : L = sortByDate (meltRecords t) := by
    unfold convertToLongFormat at hok
    cases hfind : (meltRecords t).find? (fun r => (parseMonth r.month).isNone) with
    | some c => rw [hfind] at hok; cases hok
    | none => rw [hfind] at hok; exact (Except.ok.inj hok).symm
  have hperm : (L.filter (fun x => decide (x.ids = r.ids))).Perm
      ((meltRecords t).filter (fun x => decide (x.ids = r.ids))) := by
    rw [hL]
    exact (List.perm_insertionSort _ _).filter _
  have hmelt : (meltRecords t).filter (fun x => decide (x.ids = r.ids))
      = (monthlyCols t).enum.map (fun jc => mkLong r jc.1 jc.2) := by
    unfold meltRecords
    rw [List.filter_flatMap]
    have hinner : ∀ jc : Nat × String,
        List.filter (fun x => decide (x.ids = r.ids))
            (t.rows.map (fun row => mkLong row jc.1 jc.2))
          = [mkLong r jc.1 jc.2] := by
      intro jc
      rw [List.filter_map]
      rw [show ((fun x : LongRecord => decide (x.ids = r.ids)) ∘
          fun row => mkLong row jc.1 jc.2) = (fun row => decide (row.ids = r.ids))
        from rfl]
      rw [filter_ids_singleton t.rows r hdist hr]
      rfl
    simp only [hinner]
    exact flatMap_singleton_map _ _
  constructor
  · rw [hperm.length_eq, hmelt, List.length_map, List.enum_length, hcols]
  · have hsum : sumSales ((meltRecords t).filter (fun x => decide (x.ids = r.ids)))
        = r.values.sum := by
      rw [hmelt]
      unfold sumSales
      rw [List.map_map]
      rw [show ((fun x : LongRecord => x.sales) ∘ fun jc : Nat × String => mkLong r jc.1 jc.2)
          = ((fun j => r.values.getD j 0) ∘ Prod.fst) from rfl]
      rw [← List.map_map, List.enum_map_fst, hcols, ← hvals]
      exact sum_range_getD r.values
    unfold sumSales
    rw [(hperm.map _).sum_eq]
    exact hsum

/-- C1 witness: the one-row table with values 100, 0, …, 0 in the twelve
month columns produces twelve long records for that row whose sales sum to
100. -/
theorem c1_reshape_sum_preserving_witness :
    exW.rows.Pairwise (fun a b => a.ids ≠ b.ids) ∧
      exWRow ∈ exW.rows ∧ (monthlyCols exW).length = 12 ∧
      exWRow.values.length = 12 ∧ convertToLongFormat exW = Except.ok exWL ∧
      ((exWL.filter (fun x => decide (x.ids = exWRow.ids))).length = 12 ∧
        sumSales (exWL.filter (fun x => decide (x.ids = exWRow.ids))) = 100) := by
  refine ⟨by decide, by decide, by decide, by decide, rfl, ?_⟩
  have h := c1_reshape_sum_preserving exW exWRow exWL
    (by decide) (by decide) (by decide) (by decide) rfl
  refine ⟨h.1, h.2.trans ?_⟩
  simp [exWRow]

end CSD
